import Mathlib

/-!
Verification of the grafana-alert-provisioner command-line tools
(`scripts/add-alert.py` and `scripts/remove-alert.py`) against their
specification.  The Python scripts are shallowly embedded: JSON values
become the inductive `JVal`, Python dict operations become association-list
operations, network calls become explicit response/oracle parameters, and
stderr warnings become returned lists.  Python truthiness is modelled by
`truthy`.  Paths on which the Python would raise an uncaught `TypeError`
(e.g. item assignment on a non-mapping) are outside the embedding; theorems
that could touch such paths carry well-formedness hypotheses restricting to
inputs on which the scripts run without crashing.
-/

set_option autoImplicit false

namespace GrafanaProvisioner

/-- A JSON value, as produced by Python's `json.load`.  Numbers are modelled
as integers (no claim depends on float values). -/
inductive JVal where
  | jnull
  | jbool (b : Bool)
  | jnum (n : Int)
  | jstr (s : String)
  | jarr (elems : List JVal)
  | jobj (fields : List (String × JVal))

namespace JVal

/-- Python truthiness of a JSON value: `None`, `False`, `0`, `""`, `[]`,
`{}` are falsy, everything else truthy. -/
def truthy : JVal → Bool
  | .jnull => false
  | .jbool b => b
  | .jnum n => n != 0
  | .jstr s => s != ""
  | .jarr xs => !xs.isEmpty
  | .jobj fs => !fs.isEmpty

end JVal

/-- Python truthiness of an optional JSON value (`None` is falsy). -/
def truthyOpt : Option JVal → Bool
  | none => false
  | some v => v.truthy

/-- Python truthiness of an optional string (e.g. an `argparse` value that
is `None` when the flag is absent): `None` and `""` are falsy. -/
def strTruthy : Option String → Bool
  | none => false
  | some s => s != ""

/-- Lookup in a Python dict represented as an ordered association list:
first binding for the key (keys are unique in a real dict, so first = only). -/
def getField : List (String × JVal) → String → Option JVal
  | [], _ => none
  | (k', v) :: rest, k => if k' == k then some v else getField rest k

/-- Python dict item assignment `d[k] = v`: replace the existing binding in
place, or append a new binding at the end (insertion order preserved). -/
def setField : List (String × JVal) → String → JVal → List (String × JVal)
  | [], k, v => [(k, v)]
  | (k', v') :: rest, k, v =>
      if k' == k then (k, v) :: rest else (k', v') :: setField rest k v

/-- `d.get(k)` on a JSON value.  Python raises `AttributeError` when the
value is not a mapping; that crash path is outside the embedding and the
model returns `none` there (theorems never rely on that case). -/
def jget : JVal → String → Option JVal
  | .jobj fs, k => getField fs k
  | _, _ => none

/-- `k in d` on a JSON mapping. -/
def jhas (v : JVal) (k : String) : Bool :=
  (jget v k).isSome

/-- `d[k] = v` on a JSON value.  Python raises `TypeError` when the value is
not a mapping; the model leaves non-mappings unchanged and every theorem
whose Python run would perform such an assignment restricts to mappings. -/
def jset : JVal → String → JVal → JVal
  | .jobj fs, k, v => .jobj (setField fs k v)
  | x, _, _ => x

/-- Is the value a JSON mapping (`isinstance(x, dict)`)? -/
def jIsObj : JVal → Bool
  | .jobj _ => true
  | _ => false

/-- Elements of a JSON array (`isinstance(x, list)` iteration). -/
def jElems : JVal → List JVal
  | .jarr xs => xs
  | _ => []

/-- `d.get(k, [])` followed by list iteration: the array elements when the
key maps to an array, `[]` when the key is absent.  (A non-array value there
would make the Python iterate something else or crash; theorems that touch
this helper restrict to documents where the key is absent or an array.) -/
def jgetArr (v : JVal) (k : String) : List JVal :=
  match jget v k with
  | some (.jarr xs) => xs
  | _ => []

mutual

/-- Structural equality of JSON values (Python `==` on values produced by
`json.load`), used for dict-key lookup. -/
def jvalBeq : JVal → JVal → Bool
  | .jnull, .jnull => true
  | .jbool a, .jbool b => a == b
  | .jnum a, .jnum b => a == b
  | .jstr a, .jstr b => a == b
  | .jarr xs, .jarr ys => jvalListBeq xs ys
  | .jobj xs, .jobj ys => jvalFieldsBeq xs ys
  | _, _ => false

def jvalListBeq : List JVal → List JVal → Bool
  | [], [] => true
  | x :: xs, y :: ys => jvalBeq x y && jvalListBeq xs ys
  | _, _ => false

def jvalFieldsBeq : List (String × JVal) → List (String × JVal) → Bool
  | [], [] => true
  | (k, x) :: xs, (l, y) :: ys => k == l && jvalBeq x y && jvalFieldsBeq xs ys
  | _, _ => false

end

/-!  ## add-alert.py: configuration  -/

/-- The URL normalization in `load_config` of both scripts:
`config["url"].rstrip("/")`, i.e. remove every trailing `'/'` character. -/
def normalize_url (s : String) : String :=
  ⟨(s.data.reverse.dropWhile (fun c => c == '/')).reverse⟩

/-!  ## add-alert.py: folders  -/

/-- Outcome of the `GET /api/folders` request made by `get_folders`:
a parsed JSON body, an HTTP error status (turned into an exception by
`raise_for_status`), or a transport error (timeout, connection failure). -/
inductive FoldersResp where
  | ok (folders : List JVal)
  | httpError (code : Nat)
  | netError

/-- `get_folders`: builds the `{f["title"]: f["uid"] for f in folders}`
mapping (as an ordered list of key/value pairs) from a successful response,
and returns the empty mapping `{}` on any `requests.RequestException`
(HTTP error status or transport error).  A folder object lacking `title` or
`uid` would raise an uncaught `KeyError` in the Python; that crash path is
outside the embedding. -/
def get_folders : FoldersResp → List (JVal × JVal)
  | .ok fs => fs.map (fun f => ((jget f "title").getD .jnull, (jget f "uid").getD .jnull))
  | .httpError _ => []
  | .netError => []

/-- Lookup in the folder mapping (`folders.get(folder_name)`): with
duplicate titles the later binding wins, as in a Python dict comprehension. -/
def folders_lookup (pairs : List (JVal × JVal)) (k : JVal) : Option JVal :=
  (pairs.reverse.find? (fun p => jvalBeq p.1 k)).map (fun p => p.2)

/-!  ## add-alert.py: format detection and validation  -/

/-- `is_export_format`: the mapping has both an `apiVersion` and a `groups`
key. -/
def is_export_format (fs : List (String × JVal)) : Bool :=
  (getField fs "apiVersion").isSome && (getField fs "groups").isSome

/-- The three input shapes distinguished by `import_alert` lines 213-222:
a mapping in export format, a list of rules, or a single rule. -/
inductive FileFormat where
  | export
  | ruleList
  | single
  deriving DecidableEq

/-- Format detection of `import_alert` (lines 213-222): a mapping that
`is_export_format` accepts is an export; otherwise a list is a rule list;
any other value (including a mapping with only one of the two export keys)
is a single rule. -/
def detect_format : JVal → FileFormat
  | .jobj fs => if is_export_format fs then .export else .single
  | .jarr _ => .ruleList
  | _ => .single

/-- The required fields checked by `validate_alert_json`, in order. -/
def required_fields : List String := ["title", "condition", "data"]

/-- The error printed by `validate_alert_json` names the first missing
required field; `none` when all three are present. -/
def validate_missing_field (v : JVal) : Option String :=
  required_fields.find? (fun k => !jhas v k)

/-- `validate_alert_json`: `true` iff `title`, `condition` and `data` are
all present. -/
def validate_alert_json (v : JVal) : Bool :=
  (validate_missing_field v).isNone

/-!  ## add-alert.py: export extraction

`extract_rules_from_export` makes at most one network call, the lazy
`get_folders` fetch; its result is passed in as the lookup function
`folders : JVal → Option JVal` (the lazy caching is behaviourally
irrelevant for a fixed response). -/

/-- The per-rule injection of the inner loop (lines 125-130):
`rule["ruleGroup"] = group_name`, and `rule["folderUID"] = folder_uid`
when `folder_uid` is truthy. -/
def inject_rule (group_name : JVal) (folder_uid : Option JVal) (rule : JVal) : JVal :=
  let r := jset rule "ruleGroup" group_name
  match folder_uid with
  | some fu => if fu.truthy then jset r "folderUID" fu else r
  | none => r

/-- One iteration of the group loop of `extract_rules_from_export`
(lines 110-130): read `name` (default `"default"`) and `folder` (default
`""`); the override, when truthy, is the folder uid; otherwise a truthy
folder name is looked up and, when the lookup result is falsy, the whole
group is skipped with a warning.  Returns the rules contributed by the
group and the warnings printed to stderr, a warning being the
`(folder_name, group_name)` pair of the message. -/
def extract_group (folders : JVal → Option JVal) (folder_override : Option String)
    (g : JVal) : List JVal × List (JVal × JVal) :=
  let group_name := (jget g "name").getD (.jstr "default")
  let folder_name := (jget g "folder").getD (.jstr "")
  let fo : Option JVal := folder_override.map .jstr
  if !truthyOpt fo && folder_name.truthy then
    let fu := folders folder_name
    if !truthyOpt fu then ([], [(folder_name, group_name)])
    else ((jgetArr g "rules").map (inject_rule group_name fu), [])
  else ((jgetArr g "rules").map (inject_rule group_name fo), [])

/-- The group loop of `extract_rules_from_export`, concatenating each
group's contribution in order. -/
def extract_groups (folders : JVal → Option JVal) (folder_override : Option String) :
    List JVal → List JVal × List (JVal × JVal)
  | [] => ([], [])
  | g :: gs =>
      let r := extract_group folders folder_override g
      let rest := extract_groups folders folder_override gs
      (r.1 ++ rest.1, r.2 ++ rest.2)

/-- `extract_rules_from_export` (lines 105-132): iterate
`data.get("groups", [])`. -/
def extract_rules_from_export (folders : JVal → Option JVal)
    (folder_override : Option String) (data : JVal) : List JVal × List (JVal × JVal) :=
  extract_groups folders folder_override (jgetArr data "groups")

/-!  ## add-alert.py: per-rule import  -/

/-- Outcome of one HTTP request: a status code with parsed body, or a
transport error (timeout, connection failure). -/
inductive HttpResp where
  | status (code : Nat) (body : JVal)
  | netError

/-- `get_existing_alert`: the parsed body on HTTP 200, `None` on any other
status code and on any `requests.RequestException`. -/
def get_existing_alert : HttpResp → Option JVal
  | .status code body => if code == 200 then some body else none
  | .netError => none

/-- Which provisioning call the rule loop of `import_alert` performs for a
rule: `PUT` update or `POST` create. -/
inductive ImportAction where
  | create
  | update
  deriving DecidableEq

/-- The create-or-update decision of `import_alert` lines 239-244:
update iff the rule's `uid` is truthy AND the existence `GET` returned a
truthy body (`if uid and get_existing_alert(config, uid)`). -/
def import_action (alert : JVal) (existsResp : HttpResp) : ImportAction :=
  if truthyOpt (jget alert "uid") && truthyOpt (get_existing_alert existsResp) then
    .update
  else
    .create

/-- Network behaviour for one rule of the import loop: the response to the
existence `GET` (consulted when the rule has a truthy `uid`) and whether
the subsequent create/update call completes without raising. -/
structure RuleNet where
  existsResp : HttpResp
  importOk : Bool

/-- The `success_count` accumulation of the rule loop of `import_alert`
(lines 229-252), rule number `i` using network behaviour `net i`: a rule
counts iff it passes `validate_alert_json` (otherwise it is skipped) and
its create/update call succeeds (otherwise the error is printed and the
loop continues). -/
def count_successes (net : Nat → RuleNet) (i : Nat) : List JVal → Nat
  | [] => 0
  | a :: rest =>
      (if validate_alert_json a && (net i).importOk then 1 else 0) +
        count_successes net (i + 1) rest

/-- The `(success_count, len(alerts))` pair `import_alert` returns for the
collected alerts (line 254): the total is the length of the collected list,
validation-skipped rules included. -/
def process_alerts (net : Nat → RuleNet) (alerts : List JVal) : Nat × Nat :=
  (count_successes net 0 alerts, alerts.length)

/-!  ## add-alert.py: per-file import  -/

/-- The folder-override pass of `import_alert` (lines 224-227): when the
`--folder` value is truthy (present and non-empty), set `folderUID` on
every collected alert. -/
def apply_folder_override (folder_override : Option String) (alerts : List JVal) : List JVal :=
  match folder_override with
  | some s => if s != "" then alerts.map (fun a => jset a "folderUID" (.jstr s)) else alerts
  | none => alerts

/-- The alert-collection phase of `import_alert` (lines 212-227): format
detection, export extraction with its empty-export error (`none` models the
`"No valid rules found in export"` early return `(0, 1)`), then the
folder-override pass applied to the collected list of every format. -/
def collect_alerts (folders : JVal → Option JVal) (folder_override : Option String)
    (v : JVal) : Option (List JVal) :=
  match detect_format v with
  | .export =>
      let alerts := (extract_rules_from_export folders folder_override v).1
      if alerts.isEmpty then none
      else some (apply_folder_override folder_override alerts)
  | .ruleList => some (apply_folder_override folder_override (jElems v))
  | .single => some (apply_folder_override folder_override [v])

/-- What reading one input file yields: the file is absent, its content is
not valid JSON, or it parses to a value. -/
inductive FileInput where
  | missing
  | badJson
  | parsed (v : JVal)

/-- `import_alert` (lines 198-254): `(0, 1)` for an unreadable or malformed
file and for an export yielding no rules; otherwise the rule loop's
`(success_count, len(alerts))`. -/
def import_alert (folders : JVal → Option JVal) (net : Nat → RuleNet)
    (folder_override : Option String) (input : FileInput) : Nat × Nat :=
  match input with
  | .missing => (0, 1)
  | .badJson => (0, 1)
  | .parsed v =>
      match collect_alerts folders folder_override v with
      | none => (0, 1)
      | some alerts => process_alerts net alerts

/-!  ## add-alert.py: main  -/

/-- Per-file pass/fail classification. -/
inductive Verdict where
  | pass
  | fail
  deriving DecidableEq

/-- The dry-run branch of `main` (lines 300-321) together with the
missing-file check (line 295): a missing or malformed file fails; an
export-format file always succeeds (only group/rule counts are printed);
a list or single rule succeeds iff every rule passes
`validate_alert_json`.  The function takes no network oracle: the dry-run
path performs no network call. -/
def dry_run_verdict : FileInput → Verdict
  | .missing => .fail
  | .badJson => .fail
  | .parsed v =>
      match detect_format v with
      | .export => .pass
      | .ruleList => if (jElems v).all validate_alert_json then .pass else .fail
      | .single => if validate_alert_json v then .pass else .fail

/-- The rule-network on which every create/update call succeeds (the
existence response is never consulted for success counting). -/
def perfectNet : Nat → RuleNet := fun _ => ⟨.netError, true⟩

/-- The pass/fail verdict a real (non-dry-run) import assigns to a file as
determined by validation alone, i.e. when every network call succeeds:
pass iff the file contributes zero failures to `main`'s accounting
(its success count equals its total count). -/
def validation_verdict (folders : JVal → Option JVal) (folder_override : Option String)
    (input : FileInput) : Verdict :=
  let r := import_alert folders perfectNet folder_override input
  if r.1 == r.2 then .pass else .fail

/-- The `(success, failure)` increments one file adds to `main`'s totals
(lines 294-325): a missing file is one failure in both modes; in dry-run
mode the file's verdict adds one success or one failure; otherwise
`import_alert`'s `(success, total)` adds `success` successes and
`total - success` failures. -/
def main_file_counts (folders : JVal → Option JVal) (net : Nat → RuleNet)
    (folder_override : Option String) (dry : Bool) (input : FileInput) : Nat × Nat :=
  match input with
  | .missing => (0, 1)
  | _ =>
      if dry then
        match dry_run_verdict input with
        | .pass => (1, 0)
        | .fail => (0, 1)
      else
        let r := import_alert folders net folder_override input
        (r.1, r.2 - r.1)

/-- `main`'s accumulation of `total_success` and `total_failed` over the
file list, each file paired with its own rule-network. -/
def main_run (folders : JVal → Option JVal) (folder_override : Option String)
    (dry : Bool) : List (FileInput × (Nat → RuleNet)) → Nat × Nat
  | [] => (0, 0)
  | (input, net) :: rest =>
      let c := main_file_counts folders net folder_override dry input
      let r := main_run folders folder_override dry rest
      (c.1 + r.1, c.2 + r.2)

/-- `main`'s exit code (line 330): `0` iff `total_failed == 0`, else `1`. -/
def main_exit_code (folders : JVal → Option JVal) (folder_override : Option String)
    (dry : Bool) (files : List (FileInput × (Nat → RuleNet))) : Nat :=
  if (main_run folders folder_override dry files).2 == 0 then 0 else 1

/-!  ## remove-alert.py  -/

/-- The command-line inputs of `remove-alert.py` relevant to target
resolution and deletion.  `argparse` yields `None` for an absent option
and the given (possibly empty) string otherwise. -/
structure RemoveArgs where
  identifier : Option String
  uid : Option String
  ruleName : Option String
  dryRun : Bool
  force : Bool

/-- The external behaviour of one `remove-alert.py` run: `byUid u` is the
result of `get_alert_by_uid` (the parsed body on HTTP 200, `None`
otherwise), `byName n` the result of `find_alert_by_name` (the first listed
rule whose `title` equals `n`), `confirm` the interactive answer read by
`input()`, and `deleteOk` whether the `DELETE` call completes without
raising. -/
structure RemoveEnv where
  byUid : String → Option JVal
  byName : String → Option JVal
  confirm : String
  deleteOk : Bool

/-- Result of the target-resolution block of `remove-alert.py`'s `main`
(lines 203-233). -/
inductive Resolution where
  | target (uidToDelete : Option JVal) (info : JVal)
  | notFound
  | usage

/-- Target resolution (lines 203-233): a truthy `--uid` is resolved by
`get_alert_by_uid` (a falsy result is fatal); else a truthy `--name` by
`find_alert_by_name` (falsy fatal), deleting `alert_info.get("uid")`; else
a truthy positional identifier is tried first as a uid, then as a title;
with no input the usage text is printed. -/
def resolve_target (env : RemoveEnv) (args : RemoveArgs) : Resolution :=
  if strTruthy args.uid then
    let u := args.uid.getD ""
    let info := env.byUid u
    if truthyOpt info then .target (some (.jstr u)) (info.getD .jnull)
    else .notFound
  else if strTruthy args.ruleName then
    let n := args.ruleName.getD ""
    let info := env.byName n
    if truthyOpt info then .target (jget (info.getD .jnull) "uid") (info.getD .jnull)
    else .notFound
  else if strTruthy args.identifier then
    let idf := args.identifier.getD ""
    let info := env.byUid idf
    if truthyOpt info then .target (some (.jstr idf)) (info.getD .jnull)
    else
      let info2 := env.byName idf
      if truthyOpt info2 then .target (jget (info2.getD .jnull) "uid") (info2.getD .jnull)
      else .notFound
  else .usage

/-- The confirmation check (line 250): `confirm.lower() in ("y", "yes")`. -/
def confirm_yes (ans : String) : Bool :=
  ans.toLower == "y" || ans.toLower == "yes"

/-- Observable outcome of one `remove-alert.py` run: the process exit code
and whether a `DELETE` request was issued. -/
structure RemoveOutcome where
  exitCode : Nat
  deleteIssued : Bool
  deriving DecidableEq

/-- `remove-alert.py`'s `main` after the list-mode branch (lines 203-263):
failed resolution and missing arguments exit 1 without deleting; dry-run
stops after printing the target; without `--force` a non-affirmative
answer aborts with exit 0; otherwise the `DELETE` is issued and a raising
call exits 1. -/
def remove_main (env : RemoveEnv) (args : RemoveArgs) : RemoveOutcome :=
  match resolve_target env args with
  | .notFound => ⟨1, false⟩
  | .usage => ⟨1, false⟩
  | .target _ _ =>
      if args.dryRun then ⟨0, false⟩
      else if !args.force && !confirm_yes env.confirm then ⟨0, false⟩
      else if env.deleteOk then ⟨0, true⟩ else ⟨1, true⟩

/-!  ## Claim-side definitions

For the refinement claim C4 the claimed extraction result is written a
second time, directly from the claim's words, to be compared with the
source-derived `extract_rules_from_export`. -/

/-- Claim side: the folder identifier a group resolves to — its folder
name (default `""`), when truthy, looked up in the folder mapping, a falsy
lookup result counting as unresolved. -/
def spec_group_folder_uid (folders : JVal → Option JVal) (g : JVal) : Option JVal :=
  let folder_name := (jget g "folder").getD (.jstr "")
  if folder_name.truthy then
    match folders folder_name with
    | some u => if u.truthy then some u else none
    | none => none
  else none

/-- Claim side: a group contributes its rules iff it specified no folder
or its named folder resolved. -/
def spec_group_resolves (folders : JVal → Option JVal) (g : JVal) : Bool :=
  !((jget g "folder").getD (.jstr "")).truthy || (spec_group_folder_uid folders g).isSome

/-- Claim side: the group's `name` (default `"default"`) injected as
`ruleGroup`, and the resolved identifier injected as `folderUID` when a
folder resolved. -/
def spec_inject (folders : JVal → Option JVal) (g : JVal) (r : JVal) : JVal :=
  let r1 := jset r "ruleGroup" ((jget g "name").getD (.jstr "default"))
  match spec_group_folder_uid folders g with
  | some u => jset r1 "folderUID" u
  | none => r1

/-- Claim side: the flattened extraction — the concatenation, in group
order, of the injected `rules` of every group that resolved, resolution
failures contributing nothing. -/
def spec_extracted_rules (folders : JVal → Option JVal) (data : JVal) : List JVal :=
  (jgetArr data "groups").flatMap (fun g =>
    if spec_group_resolves folders g then (jgetArr g "rules").map (spec_inject folders g)
    else [])

/-!  ## Well-formedness

The Python scripts crash with an uncaught `TypeError` when they perform
dict item assignment on a non-mapping; theorems about inputs that reach
such an assignment restrict to documents where every rule position is a
mapping. -/

/-- Every rule position of the document is a mapping, so the collection
phase of `import_alert` performs item assignment on mappings only. -/
def wf_collect_input : JVal → Bool
  | .jobj fs =>
      if is_export_format fs then
        (jgetArr (.jobj fs) "groups").all (fun g => (jgetArr g "rules").all jIsObj)
      else true
  | .jarr xs => xs.all jIsObj
  | _ => false

/-!  ## Helper lemmas  -/

theorem getField_setField_self (fs : List (String × JVal)) (k : String) (v : JVal) :
    getField (setField fs k v) k = some v := by
  induction fs with
  | nil => simp [setField, getField]
  | cons p rest ih =>
      obtain ⟨k', v'⟩ := p
      by_cases h : k' = k
      · simp [setField, getField, h]
      · simp only [setField, getField, beq_iff_eq, if_neg h]
        exact ih

theorem getField_setField_ne (fs : List (String × JVal)) {k k' : String} (v : JVal)
    (h : k' ≠ k) : getField (setField fs k v) k' = getField fs k' := by
  have hne : ¬ k = k' := fun hh => h hh.symm
  induction fs with
  | nil => simp [setField, getField, hne]
  | cons p rest ih =>
      obtain ⟨k'', v''⟩ := p
      by_cases hk : k'' = k
      · subst hk
        simp [setField, getField, hne]
      · simp only [setField, getField, beq_iff_eq, if_neg hk]
        by_cases hk' : k'' = k'
        · simp [getField, hk']
        · simp only [getField, beq_iff_eq, if_neg hk']
          exact ih

theorem jIsObj_jset (a : JVal) (k : String) (v : JVal) :
    jIsObj (jset a k v) = jIsObj a := by
  cases a <;> rfl

theorem jget_jset_self {a : JVal} (h : jIsObj a = true) (k : String) (v : JVal) :
    jget (jset a k v) k = some v := by
  cases a <;> simp_all [jIsObj, jset, jget, getField_setField_self]

theorem jget_jset_ne (a : JVal) {k k' : String} (v : JVal) (h : k' ≠ k) :
    jget (jset a k v) k' = jget a k' := by
  cases a <;> simp [jset, jget, getField_setField_ne _ _ h]

theorem jhas_jset_ne (a : JVal) {k k' : String} (v : JVal) (h : k' ≠ k) :
    jhas (jset a k v) k' = jhas a k' := by
  simp [jhas, jget_jset_ne a v h]

theorem validate_jset_folderUID (a : JVal) (x : JVal) :
    validate_alert_json (jset a "folderUID" x) = validate_alert_json a := by
  simp only [validate_alert_json, validate_missing_field, required_fields]
  have h1 : jhas (jset a "folderUID" x) "title" = jhas a "title" :=
    jhas_jset_ne a x (by decide)
  have h2 : jhas (jset a "folderUID" x) "condition" = jhas a "condition" :=
    jhas_jset_ne a x (by decide)
  have h3 : jhas (jset a "folderUID" x) "data" = jhas a "data" :=
    jhas_jset_ne a x (by decide)
  simp [List.find?, h1, h2, h3]

theorem all_validate_apply_override (fo : Option String) (xs : List JVal) :
    (apply_folder_override fo xs).all validate_alert_json = xs.all validate_alert_json := by
  match fo with
  | none => rfl
  | some s =>
      by_cases h : s = ""
      · simp [apply_folder_override, h]
      · simp only [apply_folder_override, bne_iff_ne, ne_eq, h, not_false_eq_true, if_true,
          List.all_map]
        congr 1
        funext a
        exact validate_jset_folderUID a (.jstr s)

theorem count_successes_le (net : Nat → RuleNet) (i : Nat) (alerts : List JVal) :
    count_successes net i alerts ≤ alerts.length := by
  induction alerts generalizing i with
  | nil => simp [count_successes]
  | cons a rest ih =>
      simp only [count_successes, List.length_cons]
      have := ih (i + 1)
      split <;> omega

theorem count_successes_lt (net : Nat → RuleNet) (i : Nat) {alerts : List JVal}
    {r : JVal} (hr : r ∈ alerts) (hv : validate_alert_json r = false) :
    count_successes net i alerts < alerts.length := by
  induction alerts generalizing i with
  | nil => cases hr
  | cons a rest ih =>
      simp only [count_successes, List.length_cons]
      rcases List.mem_cons.mp hr with h | h
      · have hz : (if (validate_alert_json a && (net i).importOk) = true then 1 else 0) = 0 := by
          rw [← h, hv]
          simp
        rw [hz]
        have := count_successes_le net (i + 1) rest
        omega
      · have := ih (i + 1) h
        split <;> omega

theorem count_successes_perfect (i : Nat) (alerts : List JVal) :
    count_successes perfectNet i alerts = alerts.countP validate_alert_json := by
  induction alerts generalizing i with
  | nil => rfl
  | cons a rest ih =>
      simp only [count_successes, perfectNet, Bool.and_true, List.countP_cons, ih (i + 1)]
      by_cases hva : validate_alert_json a = true
      · simp [hva, Nat.add_comm]
      · simp [hva]

theorem jIsObj_inject_rule (gn : JVal) (fu : Option JVal) (r : JVal) :
    jIsObj (inject_rule gn fu r) = jIsObj r := by
  cases fu with
  | none => simp [inject_rule, jIsObj_jset]
  | some u =>
      simp only [inject_rule]
      split <;> simp [jIsObj_jset]

theorem all_jIsObj_map_inject (gn : JVal) (fu : Option JVal) (l : List JVal) :
    (l.map (inject_rule gn fu)).all jIsObj = l.all jIsObj := by
  simp only [List.all_map, Function.comp]
  congr 1
  funext r
  exact jIsObj_inject_rule gn fu r

theorem truthyOpt_none : truthyOpt none = false := rfl

theorem truthyOpt_some (v : JVal) : truthyOpt (some v) = v.truthy := rfl

theorem truthy_jstr_empty : JVal.truthy (.jstr "") = false := rfl

theorem extract_group_no_folder (folders : JVal → Option JVal) (fo : Option String)
    (g : JVal) (hfn : ((jget g "folder").getD (.jstr "")).truthy = false)
    (hfo : strTruthy fo = false) :
    extract_group folders fo g =
      ((jgetArr g "rules").map
        (inject_rule ((jget g "name").getD (.jstr "default")) (fo.map .jstr)), []) := by
  cases fo with
  | none => simp [extract_group, truthyOpt_none, hfn]
  | some s =>
      have hs : s = "" := by simpa [strTruthy] using hfo
      subst hs
      simp [extract_group, truthyOpt_some, truthy_jstr_empty, hfn]

theorem extract_group_unresolved (folders : JVal → Option JVal)
    (g : JVal) (hfn : ((jget g "folder").getD (.jstr "")).truthy = true)
    (hfu : truthyOpt (folders ((jget g "folder").getD (.jstr ""))) = false) :
    extract_group folders none g =
      ([], [((jget g "folder").getD (.jstr ""), (jget g "name").getD (.jstr "default"))]) := by
  simp [extract_group, truthyOpt_none, hfn, hfu]

theorem extract_group_resolved (folders : JVal → Option JVal)
    (g : JVal) (u : JVal) (hfn : ((jget g "folder").getD (.jstr "")).truthy = true)
    (hfu : folders ((jget g "folder").getD (.jstr "")) = some u)
    (hu : u.truthy = true) :
    extract_group folders none g =
      ((jgetArr g "rules").map
        (inject_rule ((jget g "name").getD (.jstr "default")) (some u)), []) := by
  simp [extract_group, truthyOpt_none, truthyOpt_some, hfn, hfu, hu]

theorem spec_uid_no_folder (folders : JVal → Option JVal) (g : JVal)
    (hfn : ((jget g "folder").getD (.jstr "")).truthy = false) :
    spec_group_folder_uid folders g = none := by
  simp [spec_group_folder_uid, hfn]

theorem spec_uid_unresolved (folders : JVal → Option JVal) (g : JVal)
    (hfu : truthyOpt (folders ((jget g "folder").getD (.jstr ""))) = false) :
    spec_group_folder_uid folders g = none := by
  simp only [spec_group_folder_uid]
  split
  · cases hvu : folders ((jget g "folder").getD (.jstr "")) with
    | none => rfl
    | some u =>
        rw [hvu, truthyOpt_some] at hfu
        simp [hfu]
  · rfl

theorem spec_uid_resolved (folders : JVal → Option JVal) (g : JVal) (u : JVal)
    (hfn : ((jget g "folder").getD (.jstr "")).truthy = true)
    (hfu : folders ((jget g "folder").getD (.jstr "")) = some u)
    (hu : u.truthy = true) :
    spec_group_folder_uid folders g = some u := by
  simp [spec_group_folder_uid, hfn, hfu, hu]

theorem inject_eq_spec_no_folder (folders : JVal → Option JVal) (g : JVal) (r : JVal)
    (hfn : ((jget g "folder").getD (.jstr "")).truthy = false) :
    inject_rule ((jget g "name").getD (.jstr "default")) none r = spec_inject folders g r := by
  simp [inject_rule, spec_inject, spec_uid_no_folder folders g hfn]

theorem inject_eq_spec_resolved (folders : JVal → Option JVal) (g : JVal) (u : JVal) (r : JVal)
    (hfn : ((jget g "folder").getD (.jstr "")).truthy = true)
    (hfu : folders ((jget g "folder").getD (.jstr "")) = some u)
    (hu : u.truthy = true) :
    inject_rule ((jget g "name").getD (.jstr "default")) (some u) r = spec_inject folders g r := by
  simp [inject_rule, spec_inject, spec_uid_resolved folders g u hfn hfu hu, hu]

theorem extract_group_eq_spec (folders : JVal → Option JVal) (g : JVal) :
    (extract_group folders none g).1 =
      (if spec_group_resolves folders g then
        (jgetArr g "rules").map (spec_inject folders g) else []) ∧
    (extract_group folders none g).2.length =
      (if spec_group_resolves folders g then 0 else 1) := by
  by_cases hfn : ((jget g "folder").getD (.jstr "")).truthy = true
  · by_cases hfu : truthyOpt (folders ((jget g "folder").getD (.jstr ""))) = true
    · cases hvu : folders ((jget g "folder").getD (.jstr "")) with
      | none => rw [hvu, truthyOpt_none] at hfu; cases hfu
      | some u =>
          rw [hvu, truthyOpt_some] at hfu
          have hres : spec_group_resolves folders g = true := by
            simp [spec_group_resolves, spec_uid_resolved folders g u hfn hvu hfu]
          rw [extract_group_resolved folders g u hfn hvu hfu, hres]
          refine ⟨?_, rfl⟩
          simp only [if_true]
          exact List.map_congr_left fun r _ => inject_eq_spec_resolved folders g u r hfn hvu hfu
    · have hfu' : truthyOpt (folders ((jget g "folder").getD (.jstr ""))) = false := by
        revert hfu; cases truthyOpt (folders ((jget g "folder").getD (.jstr ""))) <;> simp
      have hres : spec_group_resolves folders g = false := by
        simp [spec_group_resolves, hfn, spec_uid_unresolved folders g hfu']
      rw [extract_group_unresolved folders g hfn hfu', hres]
      exact ⟨rfl, rfl⟩
  · have hfn' : ((jget g "folder").getD (.jstr "")).truthy = false := by
      revert hfn; cases ((jget g "folder").getD (.jstr "")).truthy <;> simp
    have hres : spec_group_resolves folders g = true := by
      simp [spec_group_resolves, hfn']
    rw [extract_group_no_folder folders none g hfn' rfl, hres]
    refine ⟨?_, rfl⟩
    simp only [if_true, Option.map_none']
    exact List.map_congr_left fun r _ => inject_eq_spec_no_folder folders g r hfn'

theorem extract_groups_eq_spec (folders : JVal → Option JVal) (gs : List JVal) :
    (extract_groups folders none gs).1 =
      gs.flatMap (fun g =>
        if spec_group_resolves folders g then
          (jgetArr g "rules").map (spec_inject folders g) else []) ∧
    (extract_groups folders none gs).2.length =
      (gs.filter (fun g => !spec_group_resolves folders g)).length := by
  induction gs with
  | nil => exact ⟨rfl, rfl⟩
  | cons g rest ih =>
      obtain ⟨h1, h2⟩ := extract_group_eq_spec folders g
      constructor
      · simp only [extract_groups, List.flatMap_cons, h1, ih.1]
      · simp only [extract_groups, List.length_append, h2, ih.2, List.filter_cons]
        by_cases hres : spec_group_resolves folders g = true
        · simp [hres]
        · simp [hres, Nat.add_comm]

theorem extract_group_obj (folders : JVal → Option JVal) (fo : Option String)
    (g : JVal) (h : (jgetArr g "rules").all jIsObj = true) :
    ((extract_group folders fo g).1).all jIsObj = true := by
  simp only [extract_group]
  split
  · split
    · rfl
    · rw [all_jIsObj_map_inject]; exact h
  · rw [all_jIsObj_map_inject]; exact h

theorem extract_groups_obj (folders : JVal → Option JVal) (fo : Option String)
    (gs : List JVal) (h : ∀ g ∈ gs, (jgetArr g "rules").all jIsObj = true) :
    ((extract_groups folders fo gs).1).all jIsObj = true := by
  induction gs with
  | nil => rfl
  | cons g rest ih =>
      simp only [extract_groups, List.all_append, Bool.and_eq_true]
      exact ⟨extract_group_obj folders fo g (h g (List.mem_cons_self g rest)),
        ih fun g' hg' => h g' (List.mem_cons_of_mem g hg')⟩

theorem jget_override_mem (s : String) (hs : s ≠ "") (alerts : List JVal)
    (hobj : alerts.all jIsObj = true) (r : JVal)
    (hr : r ∈ apply_folder_override (some s) alerts) :
    jget r "folderUID" = some (.jstr s) := by
  have hsb : (s != "") = true := by simpa [bne_iff_ne] using hs
  simp only [apply_folder_override, hsb, if_true] at hr
  obtain ⟨a, ha, rfl⟩ := List.mem_map.mp hr
  exact jget_jset_self (List.all_eq_true.mp hobj a ha) "folderUID" (.jstr s)

theorem head_dropWhile_false {α : Type} (p : α → Bool) (l : List α) (c : α)
    (h : (l.dropWhile p).head? = some c) : p c = false := by
  induction l with
  | nil => cases h
  | cons x xs ih =>
      rw [List.dropWhile_cons] at h
      by_cases hp : p x = true
      · rw [if_pos hp] at h
        exact ih h
      · rw [if_neg hp] at h
        have hx : x = c := by simpa using h
        subst hx
        simpa using hp

theorem validation_verdict_collected (folders : JVal → Option JVal) (fo : Option String)
    (v : JVal) (alerts : List JVal) (hc : collect_alerts folders fo v = some alerts) :
    validation_verdict folders fo (.parsed v) =
      (if alerts.all validate_alert_json then Verdict.pass else .fail) := by
  simp only [validation_verdict, import_alert, hc, process_alerts]
  by_cases hall : alerts.all validate_alert_json = true
  · have hcnt : count_successes perfectNet 0 alerts = alerts.length := by
      rw [count_successes_perfect, List.countP_eq_length]
      exact fun a ha => List.all_eq_true.mp hall a ha
    simp [hcnt, hall]
  · have hne : count_successes perfectNet 0 alerts ≠ alerts.length := by
      rw [count_successes_perfect]
      intro hcon
      exact hall (List.all_eq_true.mpr (List.countP_eq_length.mp hcon))
    have hbeq : (count_successes perfectNet 0 alerts == alerts.length) = false := by
      rw [beq_eq_false_iff_ne]
      exact hne
    simp [hbeq, hall]

theorem main_run_failed_sum (folders : JVal → Option JVal) (fo : Option String)
    (dry : Bool) (files : List (FileInput × (Nat → RuleNet))) :
    (main_run folders fo dry files).2 =
      (files.map (fun p => (main_file_counts folders p.2 fo dry p.1).2)).sum := by
  induction files with
  | nil => rfl
  | cons p rest ih =>
      cases p with
      | mk input net => simp only [main_run, List.map_cons, List.sum_cons, ih]

/-!  ## Claims  -/

/-- Claim C3, counterexample: the claim says the config loader removes
exactly one trailing `/`, so a URL ending in two slashes should keep one;
the code's `rstrip("/")` removes both. -/
theorem C3_counterexample :
    normalize_url "https://grafana.example.com//" = "https://grafana.example.com" ∧
    ("https://grafana.example.com" : String) ≠ "https://grafana.example.com/" := by
  constructor
  · rfl
  · decide

/-- Claim C3 (amended): the config loader removes ALL trailing `/`
characters and nothing else: the configured URL is the normalized URL
followed by some number of slashes, and the normalized URL does not end
in `/` (so a URL ending in a single slash loses exactly that slash). -/
theorem C3_url_strip_all_trailing (s : String) :
    (∃ k, s.data = (normalize_url s).data ++ List.replicate k '/') ∧
    (∀ c, (normalize_url s).data.getLast? = some c → c ≠ '/') := by
  constructor
  · have hrep : ∃ k, s.data.reverse.takeWhile (fun c => c == '/') = List.replicate k '/' := by
      refine ⟨(s.data.reverse.takeWhile (fun c => c == '/')).length,
        List.eq_replicate_of_mem ?_⟩
      intro b hb
      simpa using List.mem_takeWhile_imp hb
    obtain ⟨k, hk⟩ := hrep
    refine ⟨k, ?_⟩
    have hdata : (normalize_url s).data =
        (s.data.reverse.dropWhile (fun c => c == '/')).reverse := rfl
    rw [hdata]
    calc s.data = s.data.reverse.reverse := (List.reverse_reverse _).symm
      _ = (s.data.reverse.takeWhile (fun c => c == '/') ++
            s.data.reverse.dropWhile (fun c => c == '/')).reverse := by
            rw [List.takeWhile_append_dropWhile]
      _ = (s.data.reverse.dropWhile (fun c => c == '/')).reverse ++
            (s.data.reverse.takeWhile (fun c => c == '/')).reverse := by
            rw [List.reverse_append]
      _ = (s.data.reverse.dropWhile (fun c => c == '/')).reverse ++
            List.replicate k '/' := by
            rw [hk, List.reverse_replicate]
  · intro c hc
    have h1 : (s.data.reverse.dropWhile (fun c => c == '/')).head? = some c := by
      have h2 : (normalize_url s).data.getLast? =
          (s.data.reverse.dropWhile (fun c => c == '/')).head? :=
        List.getLast?_reverse _
      rw [← h2]
      exact hc
    simpa using head_dropWhile_false (fun c => c == '/') _ c h1

/-- Claim C3 witness: the amended theorem applied to a concrete URL. -/
theorem C3_witness :
    ∃ k, ("https://g.example//" : String).data =
      (normalize_url "https://g.example//").data ++ List.replicate k '/' :=
  (C3_url_strip_all_trailing "https://g.example//").1

/-- Claim C4: for an export-format document without a folder override, the
extracted rule list equals, group by group in order, the claim-side
flattening: groups whose folder resolved (or that named none) contribute
their `rules` with `ruleGroup` (the group `name`, default `"default"`) and
the resolved `folderUID` injected; every other group contributes zero
rules and emits exactly one warning. -/
theorem C4_export_extraction (folders : JVal → Option JVal) (data : JVal) :
    (extract_rules_from_export folders none data).1 = spec_extracted_rules folders data ∧
    (extract_rules_from_export folders none data).2.length =
      ((jgetArr data "groups").filter (fun g => !spec_group_resolves folders g)).length :=
  extract_groups_eq_spec folders (jgetArr data "groups")

/-- Claim C6: format detection order — a mapping with both `apiVersion`
and `groups` is an export; a list is one rule per element; anything else,
including a mapping with only one of the two keys, is collected as a
single rule, never as an export. -/
theorem C6_format_detection_order (folders : JVal → Option JVal) (v : JVal) :
    (∀ fs, v = .jobj fs →
      (is_export_format fs = (jhas v "apiVersion" && jhas v "groups")) ∧
      (is_export_format fs = true → detect_format v = .export) ∧
      (is_export_format fs = false → detect_format v = .single ∧
        collect_alerts folders none v = some [v])) ∧
    (∀ xs, v = .jarr xs → detect_format v = .ruleList ∧
      collect_alerts folders none v = some xs) ∧
    ((∀ fs, v ≠ .jobj fs) → (∀ xs, v ≠ .jarr xs) → detect_format v = .single ∧
      collect_alerts folders none v = some [v]) := by
  refine ⟨?_, ?_, ?_⟩
  · intro fs hv
    subst hv
    refine ⟨rfl, ?_, ?_⟩
    · intro hexp
      simp [detect_format, hexp]
    · intro hexp
      constructor
      · simp [detect_format, hexp]
      · simp [collect_alerts, detect_format, hexp, apply_folder_override]
  · intro xs hv
    subst hv
    exact ⟨rfl, rfl⟩
  · intro hobj harr
    cases v with
    | jobj fs => exact absurd rfl (hobj fs)
    | jarr xs => exact absurd rfl (harr xs)
    | jnull => exact ⟨rfl, rfl⟩
    | jbool b => exact ⟨rfl, rfl⟩
    | jnum n => exact ⟨rfl, rfl⟩
    | jstr st => exact ⟨rfl, rfl⟩

/-- Claim C6 witness: a mapping carrying only `apiVersion` is treated as a
single rule, not as an export. -/
theorem C6_witness :
    detect_format (.jobj [("apiVersion", JVal.jnum 1)]) = .single ∧
    collect_alerts (fun _ => none) none (.jobj [("apiVersion", JVal.jnum 1)]) =
      some [(.jobj [("apiVersion", JVal.jnum 1)])] :=
  ((C6_format_detection_order (fun _ => none)
    (.jobj [("apiVersion", JVal.jnum 1)])).1 [("apiVersion", JVal.jnum 1)] rfl).2.2 rfl

/-- Claim C9: when the folder-listing request fails (HTTP error or
transport error), `get_folders` yields exactly the mapping an empty folder
list would yield — the empty one — so under it every group naming a folder
(with no override) contributes zero rules and one `folder not found`
warning; the failure is never surfaced as an error. -/
theorem C9_folder_error_empty (code : Nat) (g : JVal)
    (hfn : ((jget g "folder").getD (.jstr "")).truthy = true) :
    get_folders (.httpError code) = get_folders (.ok []) ∧
    get_folders .netError = get_folders (.ok []) ∧
    folders_lookup (get_folders (.httpError code)) ((jget g "folder").getD (.jstr "")) = none ∧
    extract_group (fun k => folders_lookup (get_folders (.httpError code)) k) none g =
      ([], [((jget g "folder").getD (.jstr ""), (jget g "name").getD (.jstr "default"))]) := by
  refine ⟨rfl, rfl, rfl, ?_⟩
  exact extract_group_unresolved _ g hfn rfl

/-- Claim C9 witness: a group naming folder `Prod` under a failed folder
fetch is skipped with one warning. -/
theorem C9_witness :
    extract_group (fun k => folders_lookup (get_folders (.httpError 500)) k) none
      (.jobj [("folder", JVal.jstr "Prod")]) =
      ([], [(JVal.jstr "Prod", JVal.jstr "default")]) :=
  (C9_folder_error_empty 500 (.jobj [("folder", JVal.jstr "Prod")]) rfl).2.2.2

/-- Claim C10: any non-200 existence response and any transport error make
`get_existing_alert` return `None`, so the rule loop chooses a `POST`
create (never a `PUT` update), whatever the rule's `uid`. -/
theorem C10_existence_failure_creates (alert : JVal) (resp : HttpResp)
    (h : ∀ body, resp ≠ .status 200 body) :
    get_existing_alert resp = none ∧ import_action alert resp = .create := by
  have hget : get_existing_alert resp = none := by
    cases resp with
    | netError => rfl
    | status code body =>
        have hcode : code ≠ 200 := by
          intro hcc
          subst hcc
          exact h body rfl
        simp [get_existing_alert, hcode]
  refine ⟨hget, ?_⟩
  simp [import_action, hget, truthyOpt_none]

/-- Claim C10 witness: a 500 on the existence check of a rule with a `uid`
leads to a create. -/
theorem C10_witness :
    get_existing_alert (.status 500 .jnull) = none ∧
    import_action (.jobj [("uid", JVal.jstr "abc")]) (.status 500 .jnull) = .create :=
  C10_existence_failure_creates (.jobj [("uid", JVal.jstr "abc")]) (.status 500 .jnull)
    (fun body h => by injection h with h1 h2; omega)

/-- Claim C1, counterexample: an export-format file whose only rule lacks
`condition` passes dry-run (export files are never validated there) but
fails non-dry-run validation, so the two modes do not classify files
identically. -/
theorem C1_counterexample :
    dry_run_verdict (.parsed (.jobj [("apiVersion", JVal.jnum 1), ("groups", .jarr
      [.jobj [("name", JVal.jstr "g"), ("rules", .jarr
        [.jobj [("title", JVal.jstr "t"), ("data", JVal.jarr [])]])]])])) = .pass ∧
    validation_verdict (fun _ => none) none
      (.parsed (.jobj [("apiVersion", JVal.jnum 1), ("groups", .jarr
        [.jobj [("name", JVal.jstr "g"), ("rules", .jarr
          [.jobj [("title", JVal.jstr "t"), ("data", JVal.jarr [])]])]])])) = .fail :=
  ⟨rfl, rfl⟩

/-- Claim C1 (amended): the dry-run path performs no network request
(`dry_run_verdict` consumes no network oracle), and for missing files,
malformed JSON, and list- or single-format files its verdict equals the
verdict a real import derives from validation alone; export-format files,
however, are reported as success by dry-run unconditionally. -/
theorem C1_dry_run_matches_validation (folders : JVal → Option JVal) (fo : Option String)
    (input : FileInput) :
    ((∀ v, input = .parsed v → detect_format v ≠ .export) →
      dry_run_verdict input = validation_verdict folders fo input) ∧
    (∀ v, input = .parsed v → detect_format v = .export →
      dry_run_verdict input = .pass) := by
  constructor
  · intro h
    cases input with
    | missing => rfl
    | badJson => rfl
    | parsed v =>
        cases v with
        | jobj fs =>
            by_cases hexp : is_export_format fs = true
            · exact absurd (by simp [detect_format, hexp]) (h (.jobj fs) rfl)
            · have hc : collect_alerts folders fo (.jobj fs) =
                  some (apply_folder_override fo [(.jobj fs)]) := by
                simp [collect_alerts, detect_format, hexp]
              rw [validation_verdict_collected folders fo _ _ hc,
                all_validate_apply_override fo [(.jobj fs)]]
              simp [dry_run_verdict, detect_format, hexp]
        | jarr xs =>
            have hc : collect_alerts folders fo (.jarr xs) =
                some (apply_folder_override fo xs) := rfl
            rw [validation_verdict_collected folders fo _ _ hc,
              all_validate_apply_override fo xs]
            simp [dry_run_verdict, detect_format, jElems]
        | jnull =>
            have hc : collect_alerts folders fo (JVal.jnull) =
                some (apply_folder_override fo [JVal.jnull]) := rfl
            rw [validation_verdict_collected folders fo _ _ hc,
              all_validate_apply_override fo [JVal.jnull]]
            simp [dry_run_verdict, detect_format]
        | jbool b =>
            have hc : collect_alerts folders fo (JVal.jbool b) =
                some (apply_folder_override fo [JVal.jbool b]) := rfl
            rw [validation_verdict_collected folders fo _ _ hc,
              all_validate_apply_override fo [JVal.jbool b]]
            simp [dry_run_verdict, detect_format]
        | jnum n =>
            have hc : collect_alerts folders fo (JVal.jnum n) =
                some (apply_folder_override fo [JVal.jnum n]) := rfl
            rw [validation_verdict_collected folders fo _ _ hc,
              all_validate_apply_override fo [JVal.jnum n]]
            simp [dry_run_verdict, detect_format]
        | jstr st =>
            have hc : collect_alerts folders fo (JVal.jstr st) =
                some (apply_folder_override fo [JVal.jstr st]) := rfl
            rw [validation_verdict_collected folders fo _ _ hc,
              all_validate_apply_override fo [JVal.jstr st]]
            simp [dry_run_verdict, detect_format]
  · intro v hv hexp
    subst hv
    simp [dry_run_verdict, hexp]

/-- Claim C1 witness: the amended equivalence at a concrete non-export
file. -/
theorem C1_witness :
    dry_run_verdict (.parsed (.jarr [])) =
      validation_verdict (fun _ => none) none (.parsed (.jarr [])) :=
  (C1_dry_run_matches_validation (fun _ => none) none (.parsed (.jarr []))).1
    (fun v hv => by cases hv; decide)

/-- Claim C2, counterexample: a rule missing `condition` is skipped, yet
the per-file total `len(alerts)` still counts it, so the failure count
does not exclude it — the claim predicts a total of 0, the code returns
`(0, 1)`. -/
theorem C2_counterexample :
    validate_missing_field (.jobj [("title", JVal.jstr "t"), ("data", JVal.jarr [])]) =
      some "condition" ∧
    process_alerts perfectNet [(.jobj [("title", JVal.jstr "t"), ("data", JVal.jarr [])])] =
      (0, 1) ∧
    (process_alerts perfectNet
      [(.jobj [("title", JVal.jstr "t"), ("data", JVal.jarr [])])]).2 ≠ 0 :=
  ⟨rfl, rfl, Nat.one_ne_zero⟩

/-- Claim C2 (amended): a collected rule missing one of `title`,
`condition`, `data` has the first missing field named in an error and is
skipped — never sent and never counted as a success — but the per-file
total-rule count still includes it, so it is counted as a failure. -/
theorem C2_missing_field_rule_skipped_but_counted (net : Nat → RuleNet)
    (alerts : List JVal) (r : JVal) (hr : r ∈ alerts)
    (hv : validate_alert_json r = false) :
    (∃ f, validate_missing_field r = some f ∧ f ∈ required_fields ∧ jhas r f = false) ∧
    (process_alerts net alerts).2 = alerts.length ∧
    (process_alerts net alerts).1 < alerts.length := by
  cases hmf : validate_missing_field r with
  | none =>
      rw [validate_alert_json, hmf] at hv
      cases hv
  | some f =>
      refine ⟨⟨f, rfl, List.mem_of_find?_eq_some hmf, ?_⟩, rfl,
        count_successes_lt net 0 hr hv⟩
      simpa using List.find?_some hmf

/-- Claim C2 witness: the amended theorem at a one-rule file whose rule is
the empty mapping. -/
theorem C2_witness :
    (∃ f, validate_missing_field (.jobj []) = some f ∧ f ∈ required_fields ∧
      jhas (.jobj []) f = false) ∧
    (process_alerts perfectNet [(.jobj [])]).2 = [(JVal.jobj [])].length ∧
    (process_alerts perfectNet [(.jobj [])]).1 < [(JVal.jobj [])].length :=
  C2_missing_field_rule_skipped_but_counted perfectNet [(.jobj [])] (.jobj [])
    (List.mem_cons_self _ _) rfl

/-- Claim C5, counterexample: supplying the override flag with the empty
string (`--folder ""`) is a supplied override, but the truthiness test
`if folder_override:` skips the overwrite, so a rule keeps its
pre-existing `folderUID` instead of carrying the override value. -/
theorem C5_counterexample :
    collect_alerts (fun _ => none) (some "") (.jobj [("folderUID", JVal.jstr "keep")]) =
      some [(.jobj [("folderUID", JVal.jstr "keep")])] ∧
    jget (.jobj [("folderUID", JVal.jstr "keep")]) "folderUID" ≠ some (.jstr "") := by
  refine ⟨rfl, ?_⟩
  simp [jget, getField]

/-- Claim C5 (amended): when the `--folder` override is supplied with a
NON-EMPTY value, every rule collected for import carries that value as its
`folderUID`, regardless of format, per-group folder settings, or any
pre-existing `folderUID` (for documents whose rule positions are mappings,
on which the Python runs without a `TypeError`). -/
theorem C5_override_sets_folderUID (folders : JVal → Option JVal) (s : String)
    (hs : s ≠ "") (v : JVal) (hwf : wf_collect_input v = true)
    (alerts : List JVal) (hc : collect_alerts folders (some s) v = some alerts) :
    ∀ r ∈ alerts, jget r "folderUID" = some (.jstr s) := by
  intro r hr
  cases v with
  | jobj fs =>
      by_cases hexp : is_export_format fs = true
      · have hd : detect_format (.jobj fs) = .export := by simp [detect_format, hexp]
        simp only [collect_alerts, hd] at hc
        by_cases he :
            ((extract_rules_from_export folders (some s) (.jobj fs)).1).isEmpty = true
        · rw [if_pos he] at hc
          cases hc
        · rw [if_neg he] at hc
          have halerts := Option.some.inj hc
          subst halerts
          have hobj :
              ((extract_rules_from_export folders (some s) (.jobj fs)).1).all jIsObj = true := by
            simp only [extract_rules_from_export]
            apply extract_groups_obj
            intro g hg
            simp only [wf_collect_input, hexp, if_true] at hwf
            exact List.all_eq_true.mp hwf g hg
          exact jget_override_mem s hs _ hobj r hr
      · have hd : detect_format (.jobj fs) = .single := by simp [detect_format, hexp]
        simp only [collect_alerts, hd] at hc
        have halerts := Option.some.inj hc
        subst halerts
        have hobj : ([(JVal.jobj fs)]).all jIsObj = true := by simp [jIsObj]
        exact jget_override_mem s hs _ hobj r hr
  | jarr xs =>
      have hd : detect_format (.jarr xs) = .ruleList := rfl
      simp only [collect_alerts, hd] at hc
      have halerts := Option.some.inj hc
      subst halerts
      have hobj : (jElems (.jarr xs)).all jIsObj = true := by
        simpa [wf_collect_input, jElems] using hwf
      exact jget_override_mem s hs _ hobj r hr
  | jnull => simp [wf_collect_input] at hwf
  | jbool b => simp [wf_collect_input] at hwf
  | jnum n => simp [wf_collect_input] at hwf
  | jstr st => simp [wf_collect_input] at hwf

/-- Claim C5 witness: a non-empty override replaces a rule's pre-existing
`folderUID`. -/
theorem C5_witness :
    jget (.jobj [("folderUID", JVal.jstr "ov")]) "folderUID" = some (.jstr "ov") :=
  C5_override_sets_folderUID (fun _ => none) "ov" (by decide)
    (.jobj [("folderUID", JVal.jstr "old")]) rfl
    [(.jobj [("folderUID", JVal.jstr "ov")])] rfl
    (.jobj [("folderUID", JVal.jstr "ov")]) (List.mem_singleton.mpr rfl)

/-- Claim C7: the total failure count is the sum of the per-file failure
contributions, the exit code is 0 iff every file contributed zero
failures, and any file with a nonzero failure contribution (missing file,
malformed JSON, empty export, invalid or failed rule) forces exit code 1. -/
theorem C7_exit_zero_iff_no_failures (folders : JVal → Option JVal)
    (fo : Option String) (dry : Bool) (files : List (FileInput × (Nat → RuleNet))) :
    ((main_run folders fo dry files).2 =
      (files.map (fun p => (main_file_counts folders p.2 fo dry p.1).2)).sum) ∧
    (main_exit_code folders fo dry files = 0 ↔
      ∀ p ∈ files, (main_file_counts folders p.2 fo dry p.1).2 = 0) ∧
    (∀ p ∈ files, (main_file_counts folders p.2 fo dry p.1).2 ≠ 0 →
      main_exit_code folders fo dry files = 1) := by
  have hsum := main_run_failed_sum folders fo dry files
  have hiff : main_exit_code folders fo dry files = 0 ↔
      ∀ p ∈ files, (main_file_counts folders p.2 fo dry p.1).2 = 0 := by
    have hiff0 : main_exit_code folders fo dry files = 0 ↔
        (main_run folders fo dry files).2 = 0 := by
      simp only [main_exit_code]
      by_cases hz : (main_run folders fo dry files).2 = 0
      · simp [hz]
      · have hb : ((main_run folders fo dry files).2 == 0) = false := by
          rw [beq_eq_false_iff_ne]
          exact hz
        simp [hb, hz]
    rw [hiff0, hsum, List.sum_eq_zero_iff]
    constructor
    · intro hall p hp
      exact hall _ (List.mem_map.mpr ⟨p, hp, rfl⟩)
    · intro hall x hx
      obtain ⟨p, hp, rfl⟩ := List.mem_map.mp hx
      exact hall p hp
  refine ⟨hsum, hiff, ?_⟩
  intro p hp hnz
  have hne0 : ¬ main_exit_code folders fo dry files = 0 := by
    intro h0
    exact hnz (hiff.mp h0 p hp)
  simp only [main_exit_code] at hne0 ⊢
  by_cases hz : ((main_run folders fo dry files).2 == 0) = true
  · rw [if_pos hz] at hne0
    exact absurd rfl hne0
  · rw [if_neg hz]

/-- Claim C7 witness: one missing file forces exit code 1. -/
theorem C7_witness :
    main_exit_code (fun _ => none) none false [(FileInput.missing, perfectNet)] = 1 :=
  (C7_exit_zero_iff_no_failures (fun _ => none) none false
    [(FileInput.missing, perfectNet)]).2.2
    (FileInput.missing, perfectNet) (List.mem_cons_self _ _) (by decide)

/-- Claim C8: target resolution priority — a truthy `--uid` decides alone
(ignoring `--name` and the positional argument) via GET-by-uid; else a
truthy `--name` decides alone via list-then-match-title; else the
positional identifier is tried first as a uid and then as a title; and
whenever the chosen input fails to resolve (and when no input is given),
the tool exits 1 without issuing any DELETE. -/
theorem C8_remove_resolution (env : RemoveEnv) (args : RemoveArgs) :
    (strTruthy args.uid = true → ∀ n2 id2,
      resolve_target env args =
        resolve_target env ⟨id2, args.uid, n2, args.dryRun, args.force⟩) ∧
    (strTruthy args.uid = true →
      truthyOpt (env.byUid (args.uid.getD "")) = false →
      remove_main env args = ⟨1, false⟩) ∧
    (strTruthy args.uid = false → strTruthy args.ruleName = true → ∀ id2,
      resolve_target env args =
        resolve_target env ⟨id2, args.uid, args.ruleName, args.dryRun, args.force⟩) ∧
    (strTruthy args.uid = false → strTruthy args.ruleName = true →
      truthyOpt (env.byName (args.ruleName.getD "")) = false →
      remove_main env args = ⟨1, false⟩) ∧
    (strTruthy args.uid = false → strTruthy args.ruleName = false →
      strTruthy args.identifier = true →
      (truthyOpt (env.byUid (args.identifier.getD "")) = true →
        resolve_target env args =
          .target (some (.jstr (args.identifier.getD "")))
            ((env.byUid (args.identifier.getD "")).getD .jnull)) ∧
      (truthyOpt (env.byUid (args.identifier.getD "")) = false →
        truthyOpt (env.byName (args.identifier.getD "")) = true →
        resolve_target env args =
          .target (jget ((env.byName (args.identifier.getD "")).getD .jnull) "uid")
            ((env.byName (args.identifier.getD "")).getD .jnull)) ∧
      (truthyOpt (env.byUid (args.identifier.getD "")) = false →
        truthyOpt (env.byName (args.identifier.getD "")) = false →
        remove_main env args = ⟨1, false⟩)) ∧
    (resolve_target env args = .notFound → remove_main env args = ⟨1, false⟩) ∧
    (resolve_target env args = .usage → remove_main env args = ⟨1, false⟩) := by
  refine ⟨?_, ?_, ?_, ?_, ?_, ?_, ?_⟩
  · intro hu n2 id2
    simp [resolve_target, hu]
  · intro hu hf
    have hres : resolve_target env args = .notFound := by
      simp [resolve_target, hu, hf]
    simp [remove_main, hres]
  · intro hu hn id2
    simp [resolve_target, hu, hn]
  · intro hu hn hf
    have hres : resolve_target env args = .notFound := by
      simp [resolve_target, hu, hn, hf]
    simp [remove_main, hres]
  · intro hu hn hid
    refine ⟨?_, ?_, ?_⟩
    · intro ht
      simp [resolve_target, hu, hn, hid, ht]
    · intro ht1 ht2
      simp [resolve_target, hu, hn, hid, ht1, ht2]
    · intro ht1 ht2
      have hres : resolve_target env args = .notFound := by
        simp [resolve_target, hu, hn, hid, ht1, ht2]
      simp [remove_main, hres]
  · intro hres
    simp [remove_main, hres]
  · intro hres
    simp [remove_main, hres]

/-- Claim C8 witness: `--uid x` with no matching remote rule exits 1 and
issues no DELETE. -/
theorem C8_witness :
    remove_main ⟨fun _ => none, fun _ => none, "", true⟩
      ⟨none, some "x", none, false, false⟩ = ⟨1, false⟩ :=
  (C8_remove_resolution ⟨fun _ => none, fun _ => none, "", true⟩
    ⟨none, some "x", none, false, false⟩).2.1 rfl rfl

end GrafanaProvisioner
